import Mathlib
/-!
Verification of the node cluster manager (src/lavalink/NodeManager.py).

The Python module is shallowly embedded: the mutable `NodeManager` object becomes a
state record `NM` threaded explicitly through the operations, Python dicts become
insertion-ordered association lists, raised exceptions become `Except` results, and
the asynchronously dispatched node events become an explicit event log on the state.
Node objects are identified by a `NodeId`; their mutable attributes (regions, the
readiness flag, the owned player map) live in `NM.infos`.

The per-guild player object (`PlayerManager.py`) and the transport layer
(`WebSocket.py`) are not part of the sources; where an operation needs them they are
modelled from the specification, and each such definition says so in its doc comment.
-/
namespace Lavalink
/-- Known region identifiers, copied from `DISCORD_REGIONS` in NodeManager.py. -/
def DISCORD_REGIONS : List String :=
  ["amsterdam", "brazil", "eu-central", "eu-west", "frankfurt", "hongkong", "japan", "london",
   "russia", "singapore", "southafrica", "sydney", "us-central", "us-east", "us-south", "us-west",
   "vip-amsterdam", "vip-us-east", "vip-us-west"]
/-- Exceptions the module can raise: `RegionNotFound`, `NoNodesAvailable`, and the
builtin `IndexError` from an unguarded list index. -/
inductive PyErr where
  | regionNotFound (r : String)
  | noNodesAvailable
  | indexError
deriving DecidableEq
/-- Python dict single-key update (`d.update({k: v})`): the value at an existing key is
replaced in place, a new key is appended, preserving insertion order. -/
def dictSet {α β : Type} [DecidableEq α] : List (α × β) → α → β → List (α × β)
  | [], k, v => [(k, v)]
  | (k', v') :: t, k, v => if k' = k then (k, v) :: t else (k', v') :: dictSet t k v
/-- Python dict lookup (`d.get(k)`): the value stored at the first (unique) matching
key, if any. -/
def dictGet {α β : Type} [DecidableEq α] : List (α × β) → α → Option β
  | [], _ => none
  | (k', v') :: t, k => if k' = k then some v' else dictGet t k
/-- Constructor `Regions.__init__`: an empty (or absent) list falls back to the full
catalog (`region_list or DISCORD_REGIONS`), then every entry is checked against the
catalog, raising `RegionNotFound` at the first invalid one.  Iterating the resulting
object yields exactly the stored list, in order. -/
def regionsInit (region_list : List String) : Except PyErr (List String) :=
  let rs := if region_list = [] then DISCORD_REGIONS else region_list
  match rs.find? (fun r => !(DISCORD_REGIONS.contains r)) with
  | some r => Except.error (PyErr.regionNotFound r)
  | none => Except.ok rs
abbrev NodeId := Nat
abbrev Region := String
abbrev GuildId := Nat
abbrev Track := Nat
/-- Modelled from the spec: the per-guild session object (`PlayerManager.py` is not
under src/).  Per the interface description it exposes its owning node, the current
track, a playing flag, the last known playback position, `connect(channelId)`,
`play()`, `seek(offset)` and queue insertion. -/
structure Player where
  node : NodeId
  channel_id : Nat
  is_playing : Bool
  current : Track
  position : Nat
  queue : List Track
  connected : Bool
deriving DecidableEq
/-- Mutable attributes of one `LavalinkNode` object: its assigned regions, its
`ready` event flag, and its owned player map (`players._players`). -/
structure NodeInfo where
  regions : List Region
  ready : Bool
  players : List (GuildId × Player)
deriving DecidableEq
/-- A dispatched node state-transition event (`NodeReadyEvent` / `NodeDisabledEvent`). -/
inductive NodeEvent where
  | nodeReady (n : NodeId)
  | nodeDisabled (n : NodeId)
deriving DecidableEq
/-- The `NodeManager` state.  `nodes` is the online list, `offline_nodes` the offline
list, `nodes_by_region` the region routing dict, `rr_pos` the round-robin cursor,
`ready` the cluster-wide readiness event, and `events` the log of dispatched node
events (dispatch is fire-and-forget in the source; the log records what was sent). -/
structure NM where
  default_node_index : Nat
  round_robin : Bool
  rr_pos : Nat
  nodes : List NodeId
  offline_nodes : List NodeId
  nodes_by_region : List (Region × NodeId)
  infos : List (NodeId × NodeInfo)
  ready : Bool
  events : List NodeEvent
deriving DecidableEq
/-- State after `NodeManager.__init__`: empty collections, cursor 0, cleared events. -/
def NM.init (default_node : Nat) (round_robin : Bool) : NM :=
  { default_node_index := default_node, round_robin := round_robin, rr_pos := 0,
    nodes := [], offline_nodes := [], nodes_by_region := [], infos := [],
    ready := false, events := [] }
/-- Attributes of node `n` (the node object reached through either list). -/
def NM.info (s : NM) (n : NodeId) : NodeInfo :=
  (dictGet s.infos n).getD { regions := [], ready := false, players := [] }
/-- Mutate node `n`'s readiness event (`node.ready.set()` / `node.ready.clear()`). -/
def NM.setReady (s : NM) (n : NodeId) (b : Bool) : NM :=
  { s with infos := dictSet s.infos n { s.info n with ready := b } }
/-- Replace node `n`'s owned player map. -/
def NM.setPlayers (s : NM) (n : NodeId) (ps : List (GuildId × Player)) : NM :=
  { s with infos := dictSet s.infos n { s.info n with players := ps } }
/-- `NodeManager.add`: constructs a fresh node (identified here by a caller-supplied
fresh `id`) in offline state and appends it to `offline_nodes`. -/
def NM.add (s : NM) (id : NodeId) (regions : List Region) : NM :=
  { s with offline_nodes := s.offline_nodes ++ [id],
           infos := dictSet s.infos id { regions := regions, ready := false, players := [] } }
/-- `NodeManager.on_node_ready`: returns unchanged if the node is not in
`offline_nodes`; otherwise moves it to the end of `nodes`, sets its readiness event
and the cluster readiness event, points every one of the node's regions at it in the
routing dict, and dispatches a `NodeReadyEvent`. -/
def on_node_ready (s : NM) (node : NodeId) : NM :=
  if node ∈ s.offline_nodes then
    let s1 := { s with offline_nodes := s.offline_nodes.erase node,
                       nodes := s.nodes ++ [node] }
    let s2 := s1.setReady node true
    let s3 := { s2 with ready := true }
    let s4 := { s3 with nodes_by_region :=
        (s.info node).regions.foldl (fun d r => dictSet d r node) s3.nodes_by_region }
    { s4 with events := s4.events ++ [NodeEvent.nodeReady node] }
  else s
/-- `NodeManager.on_node_disabled`: returns unchanged if the node is not in `nodes`;
otherwise moves it to the end of `offline_nodes` and clears its readiness event.  If
no online node remains, the cluster readiness event is cleared and the procedure
stops (the routing dict is left as it is, no event is dispatched).  Otherwise every
region of the demoted node is repointed to the first remaining online node and a
`NodeDisabledEvent` is dispatched. -/
def on_node_disabled (s : NM) (node : NodeId) : NM :=
  if node ∈ s.nodes then
    let s1 := { s with nodes := s.nodes.erase node,
                       offline_nodes := s.offline_nodes ++ [node] }
    let s2 := s1.setReady node false
    let s3 := if s2.nodes = [] then { s2 with ready := false } else s2
    match s3.nodes with
    | [] => s3
    | default_node :: _ =>
      let s4 := { s3 with nodes_by_region :=
          (s.info node).regions.foldl (fun d r => dictSet d r default_node) s3.nodes_by_region }
      { s4 with events := s4.events ++ [NodeEvent.nodeDisabled node] }
  else s
/-- `NodeManager.get_rest`.  Raises `NoNodesAvailable` on an empty online list.  With
round robin on, returns `nodes[min(rr_pos, len(nodes) - 1)]` and advances the cursor,
resetting it to 0 when the advanced cursor exceeds `len(nodes)`.  With round robin
off, returns `nodes[default_node_index]` when that index is in range, else
`nodes[0]`.  The default index is modelled as a natural number; the source's
preliminary `nodes[default_node_index]` read before the round-robin branch has no
effect and is therefore folded into the branches. -/
def get_rest (s : NM) : Except PyErr (NodeId × NM) :=
  if s.nodes = [] then Except.error PyErr.noNodesAvailable
  else if s.round_robin then
    let node := s.nodes.getD (min s.rr_pos (s.nodes.length - 1)) 0
    let pos := if s.rr_pos + 1 > s.nodes.length then 0 else s.rr_pos + 1
    Except.ok (node, { s with rr_pos := pos })
  else if s.default_node_index < s.nodes.length then
    Except.ok (s.nodes.getD s.default_node_index 0, s)
  else
    Except.ok (s.nodes.getD 0 0, s)
/-- Modelled from the spec: `PlayerManager.get` (`PlayerManager.py` is not under
src/), "creating or fetching via the external session-manager collaborator" — the
stored player for the guild, or a fresh idle one on that node. -/
def playerGet (s : NM) (n : NodeId) (g : GuildId) : Player :=
  (dictGet (s.info n).players g).getD
    { node := n, channel_id := 0, is_playing := false, current := 0, position := 0,
      queue := [], connected := false }
/-- `NodeManager.get_by_region`: looks the region key up in the routing dict; on a
miss it logs and falls back to `self.nodes[0]` with no emptiness check, so an empty
online list surfaces the builtin `IndexError` there. -/
def get_by_region (s : NM) (region : Region) (g : GuildId) : Except PyErr Player :=
  match dictGet s.nodes_by_region region with
  | some node => Except.ok (playerGet s node g)
  | none =>
    match s.nodes with
    | [] => Except.error PyErr.indexError
    | n :: _ => Except.ok (playerGet s n g)
/-- Body of the failover loop in `LavalinkNode.manage_failover` for one popped
player: reassign its node reference, capture the playing flag, the loaded track and
the last position, tear down the old voice connection (`ws.voice_state(g, None)`,
modelled as clearing `connected`), and if it was playing: reconnect, insert the
captured track at the front of the queue, resume playback, and seek to the captured
position. -/
def migratePlayer (target : NodeId) (p : Player) : Player :=
  let p1 := { p with node := target }
  let is_playing := p1.is_playing
  let current_track := p1.current
  let current_posit := p1.position
  let p2 := { p1 with connected := false }
  if is_playing then
    let p3 := { p2 with connected := true }
    let p4 := { p3 with queue := current_track :: p3.queue }
    let p5 := { p4 with is_playing := true }
    { p5 with position := current_posit }
  else p2
/-- `LavalinkNode.manage_failover` on the node `self`: does nothing when no online
node exists; otherwise migrates every player owned by `self` (snapshot of its player
map, each entry popped) into the player map of `manager.nodes[0]`. -/
def manage_failover (s : NM) (self : NodeId) : NM :=
  match s.nodes with
  | [] => s
  | target :: _ =>
    let ps := (s.info self).players
    let s1 := s.setPlayers self []
    ps.foldl (fun st gp =>
      st.setPlayers target (dictSet (st.info target).players gp.1 (migratePlayer target gp.2))) s1
/-- Modelled from the spec: the transport layer (`WebSocket.py`, not under src/)
signals the registry on disconnect, which "demotes the node ... and — if other nodes
remain — triggers failover to migrate the demoted node's active sessions": demotion
followed by the demoted node's failover procedure. -/
def demote_with_failover (s : NM) (node : NodeId) : NM :=
  manage_failover (on_node_disabled s node) node
/-- `n` consecutive `get_rest` calls: the returned nodes in order and the final
state (a raised exception leaves the state unchanged and stops the run). -/
def getRestRun : Nat → NM → List NodeId × NM
  | 0, s => ([], s)
  | n + 1, s =>
    match get_rest s with
    | Except.error _ => ([], s)
    | Except.ok (nd, s1) =>
      let r := getRestRun n s1
      (nd :: r.1, r.2)
/-- A registered hook: its `__name__` and its behaviour on an event, which either
returns or raises (the raise is modelled as `Except.error` with the message). -/
structure Hook where
  name : String
  run : NodeEvent → Except String Unit
/-- What the dispatch loop records for one hook: a normal return, or an exception
caught by the `except Exception` arm (which logs the hook's name and the message). -/
inductive HookOutcome where
  | ok
  | caught (msg : String)
deriving DecidableEq
/-- One iteration of the `_dispatch_node_event` loop body: the hook call runs inside
try/except, so a raising hook yields a `caught` outcome instead of propagating. -/
def runCaught (h : Hook) (e : NodeEvent) : Except String HookOutcome :=
  match h.run e with
  | Except.ok _ => Except.ok HookOutcome.ok
  | Except.error m => Except.ok (HookOutcome.caught m)
/-- `NodeManager._dispatch_node_event`: calls every registered hook with the event in
registration order.  The result records, per hook, its name and outcome; an
`Except.error` at the top level would model an exception escaping the loop and
aborting dispatch of the remaining hooks. -/
def dispatch_node_event (hooks : List Hook) (e : NodeEvent) :
    Except String (List (String × HookOutcome)) :=
  match hooks with
  | [] => Except.ok []
  | h :: t =>
    match runCaught h e with
    | Except.error m => Except.error m
    | Except.ok o =>
      match dispatch_node_event t e with
      | Except.error m => Except.error m
      | Except.ok os => Except.ok ((h.name, o) :: os)
/-- Outcome of one hook on one event, as classified by the try/except arm. -/
def hookOutcome (h : Hook) (e : NodeEvent) : HookOutcome :=
  match h.run e with
  | Except.ok _ => HookOutcome.ok
  | Except.error m => HookOutcome.caught m
/-- Concrete two-node round-robin registry (nodes 5 and 7 added and promoted),
used by witnesses. -/
def rrState : NM :=
  on_node_ready (on_node_ready (((NM.init 0 true).add 5 ["london"]).add 7 ["sydney"]) 5) 7
/-- Reachable single-node registry after one round-robin selection and a demotion:
the cursor was advanced to 1 by get_rest and demote does not touch it. -/
def cursorOverrunState : NM :=
  on_node_disabled ((getRestRun 1 (on_node_ready ((NM.init 0 true).add 0 ["london"]) 0)).2) 0
/-- The routing invariant asserted by the claim: every region key present in the
routing dict maps to a node currently in the online list. -/
def routingOnline (s : NM) : Prop :=
  ∀ r n, dictGet s.nodes_by_region r = some n → n ∈ s.nodes
/-- Reachable state: a single node is added, promoted, and then demoted while it is
the last online node. -/
def lastNodeDemoted : NM :=
  on_node_disabled (on_node_ready ((NM.init 0 false).add 0 ["london"]) 0) 0
/-- Concrete two-node registry (nodes 0 and 1 added and promoted), used by witnesses. -/
def twoNodeState : NM :=
  on_node_ready (on_node_ready (((NM.init 0 false).add 0 ["london"]).add 1 ["sydney"]) 0) 1
/-- Reachable state with a stale routing entry: nodes 0, 1, 2 are added; 0 and 1 are
promoted; demoting 0 repoints its region london to node 1 (whose assigned set is
only sydney); then node 2 is promoted.  Online list: nodes 1 and 2; the routing dict
maps london to node 1 although london is not in node 1's assigned region set. -/
def staleRoutingState : NM :=
  on_node_ready
    (on_node_disabled
      (on_node_ready
        (on_node_ready ((((NM.init 0 false).add 0 ["london"]).add 1 ["sydney"]).add 2 ["japan"]) 0)
        1)
      0)
    2
/-- Concrete failover scenario: node 0 owns a playing session (guild 10, track 42 at
position 777) and an idle one (guild 20); node 1 is online alongside it. -/
def failoverState : NM :=
  (on_node_ready (on_node_ready (((NM.init 0 false).add 0 ["london"]).add 1 ["sydney"]) 0)
      1).setPlayers 0
    [(10, { node := 0, channel_id := 5, is_playing := true, current := 42, position := 777,
            queue := [9], connected := true }),
     (20, { node := 0, channel_id := 6, is_playing := false, current := 3, position := 4,
            queue := [], connected := false })]
theorem dictGet_dictSet {α β : Type} [DecidableEq α] (d : List (α × β)) (k k' : α) (v : β) :
    dictGet (dictSet d k v) k' = if k' = k then some v else dictGet d k' := by
  induction d with
  | nil =>
    by_cases h : k' = k <;> simp [dictSet, dictGet, h]
    exact fun h2 => absurd h2.symm h
  | cons hd t ih =>
    obtain ⟨a, b⟩ := hd
    by_cases h1 : a = k <;> by_cases h2 : a = k' <;> by_cases h3 : k' = k <;>
      simp_all [dictSet, dictGet]
/-- Lookup after writing every key of `rs` to the same value `v`
(the region loops in `on_node_ready` and `on_node_disabled`). -/
theorem dictGet_foldl_set {α β : Type} [DecidableEq α] (rs : List α) (d : List (α × β))
    (v : β) (k : α) :
    dictGet (rs.foldl (fun acc r => dictSet acc r v) d) k =
      if k ∈ rs then some v else dictGet d k := by
  induction rs generalizing d with
  | nil => simp
  | cons r rs ih =>
    simp only [List.foldl_cons, ih, dictGet_dictSet, List.mem_cons]
    by_cases h1 : k ∈ rs <;> by_cases h2 : k = r <;> simp [h1, h2]
/-- Explicit form of `on_node_ready` on a node that is in the offline list. -/
theorem on_node_ready_mem (s : NM) (node : NodeId) (h : node ∈ s.offline_nodes) :
    on_node_ready s node =
      { s with offline_nodes := s.offline_nodes.erase node,
               nodes := s.nodes ++ [node],
               infos := dictSet s.infos node { s.info node with ready := true },
               ready := true,
               nodes_by_region :=
                 (s.info node).regions.foldl (fun d r => dictSet d r node) s.nodes_by_region,
               events := s.events ++ [NodeEvent.nodeReady node] } := by
  simp [on_node_ready, NM.setReady, NM.info, h]
/-- Explicit form of `on_node_disabled` on an online node when at least one online
node remains after its removal. -/
theorem on_node_disabled_mem_rem (s : NM) (node : NodeId) (h : node ∈ s.nodes)
    (d : NodeId) (t : List NodeId) (hrem : s.nodes.erase node = d :: t) :
    on_node_disabled s node =
      { s with nodes := d :: t,
               offline_nodes := s.offline_nodes ++ [node],
               infos := dictSet s.infos node { s.info node with ready := false },
               nodes_by_region :=
                 (s.info node).regions.foldl (fun acc r => dictSet acc r d) s.nodes_by_region,
               events := s.events ++ [NodeEvent.nodeDisabled node] } := by
  simp [on_node_disabled, NM.setReady, NM.info, h, hrem]
/-- C5 counterexample: a duplicated valid identifier is accepted and kept twice, so
iteration does not yield each distinct region exactly once — the collection is not
deduplicated. -/
theorem regions_duplicates_kept :
    regionsInit ["london", "london"] = Except.ok ["london", "london"] ∧
      ¬ ((["london", "london"] : List String).Nodup) := by
  constructor
  · rfl
  · decide
/-- C5 amended: for every non-empty list of valid region identifiers, construction
succeeds and iteration yields exactly the input identifiers, in input order, with
duplicates preserved (the empty list instead falls back to the full catalog). -/
theorem regionsInit_valid_exact (rs : List String) (hne : rs ≠ [])
    (hv : ∀ r ∈ rs, r ∈ DISCORD_REGIONS) : regionsInit rs = Except.ok rs := by
  have h : rs.find? (fun r => !(decide (r ∈ DISCORD_REGIONS))) = none := by
    rw [List.find?_eq_none]
    intro x hx
    simp [hv x hx]
  simp [regionsInit, hne, h]
theorem regionsInit_valid_exact_witness :
    regionsInit ["london"] = Except.ok ["london"] :=
  regionsInit_valid_exact ["london"] (by decide) (by decide)
/-- C9: promote on a node that is not in the offline list, and demote on a node that
is not in the online list, leave the entire registry state unchanged — both node
collections, the routing dict, the readiness events, the cursor, and the event log
(so no event is dispatched). -/
theorem promote_demote_noop (s : NM) (n : NodeId) :
    (n ∉ s.offline_nodes → on_node_ready s n = s) ∧
    (n ∉ s.nodes → on_node_disabled s n = s) := by
  constructor <;> intro h <;> simp [on_node_ready, on_node_disabled, h]
theorem promote_demote_noop_witness :
    on_node_ready (NM.init 0 false) 3 = NM.init 0 false ∧
      on_node_disabled (NM.init 0 false) 3 = NM.init 0 false :=
  ⟨(promote_demote_noop (NM.init 0 false) 3).1 (by decide),
   (promote_demote_noop (NM.init 0 false) 3).2 (by decide)⟩
/-- C7: get_rest raises NoNodesAvailable exactly when the online list is empty, and
whenever the online list is non-empty it returns a node without raising. -/
theorem get_rest_noNodes_iff (s : NM) :
    (get_rest s = Except.error PyErr.noNodesAvailable ↔ s.nodes = []) ∧
    (s.nodes ≠ [] → ∃ nd s', get_rest s = Except.ok (nd, s')) := by
  by_cases h : s.nodes = []
  · simp [get_rest, h]
  · have hok : ∃ nd s', get_rest s = Except.ok (nd, s') := by
      unfold get_rest
      by_cases hrr : s.round_robin = true <;>
        by_cases hd : s.default_node_index < s.nodes.length <;>
          simp [h, hrr, hd]
    obtain ⟨nd, s', hs⟩ := hok
    refine ⟨⟨fun he => ?_, fun he => absurd he h⟩, fun _ => ⟨nd, s', hs⟩⟩
    rw [hs] at he
    exact Except.noConfusion he
theorem get_rest_noNodes_iff_witness :
    (get_rest (NM.init 0 false) = Except.error PyErr.noNodesAvailable ↔
        (NM.init 0 false).nodes = []) ∧
      (∃ nd s', get_rest twoNodeState = Except.ok (nd, s')) :=
  ⟨(get_rest_noNodes_iff (NM.init 0 false)).1,
   (get_rest_noNodes_iff twoNodeState).2 (by decide)⟩
/-- C10: with the online list empty and the requested region key absent from the
routing dict, get_by_region surfaces the builtin IndexError of the unguarded
`nodes[0]` fallback — not NoNodesAvailable. -/
theorem get_by_region_empty_miss (s : NM) (region : Region) (g : GuildId)
    (hempty : s.nodes = []) (hmiss : dictGet s.nodes_by_region region = none) :
    get_by_region s region g = Except.error PyErr.indexError ∧
      get_by_region s region g ≠ Except.error PyErr.noNodesAvailable := by
  simp [get_by_region, hmiss, hempty]
theorem get_by_region_empty_miss_witness :
    get_by_region (NM.init 0 false) "london" 1 = Except.error PyErr.indexError ∧
      get_by_region (NM.init 0 false) "london" 1 ≠ Except.error PyErr.noNodesAvailable :=
  get_by_region_empty_miss (NM.init 0 false) "london" 1 rfl rfl
/-- C8: dispatch calls every registered hook with the event, in registration order;
a raising hook's exception is caught and recorded, so it neither prevents any later
hook from receiving the same event nor escapes to the caller (the result is always
`Except.ok`, never the `Except.error` of an escaped exception). -/
theorem dispatch_isolates_failures (hooks : List Hook) (e : NodeEvent) :
    dispatch_node_event hooks e =
      Except.ok (hooks.map fun h => (h.name, hookOutcome h e)) := by
  induction hooks with
  | nil => rfl
  | cons h t ih =>
    simp only [dispatch_node_event, runCaught, List.map_cons, ih]
    cases hr : h.run e <;> simp [hookOutcome, hr]
/-- One round-robin get_rest step while the cursor is below the online count:
returns the node at the cursor and advances the cursor by one. -/
theorem get_rest_rr_step (s : NM) (hrr : s.round_robin = true)
    (hlt : s.rr_pos < s.nodes.length) :
    get_rest s = Except.ok (s.nodes.getD s.rr_pos 0, { s with rr_pos := s.rr_pos + 1 }) := by
  have hne : s.nodes ≠ [] := by
    intro hx
    rw [hx] at hlt
    simp at hlt
  have hmin : min s.rr_pos (s.nodes.length - 1) = s.rr_pos := by omega
  have hpos : ¬ (s.rr_pos + 1 > s.nodes.length) := by omega
  simp [get_rest, hne, hrr, hmin, hpos]
/-- One round-robin get_rest step once the cursor has reached (or passed) the online
count: the clamp returns the last node and the advanced cursor, now exceeding the
online count, is reset to 0. -/
theorem get_rest_rr_wrap (s : NM) (hrr : s.round_robin = true) (hne : s.nodes ≠ [])
    (hge : s.nodes.length ≤ s.rr_pos) :
    get_rest s = Except.ok (s.nodes.getD (s.nodes.length - 1) 0, { s with rr_pos := 0 }) := by
  have hlen : 0 < s.nodes.length := List.length_pos.mpr hne
  have hmin : min s.rr_pos (s.nodes.length - 1) = s.nodes.length - 1 := by omega
  have hpos : s.rr_pos + 1 > s.nodes.length := by omega
  simp [get_rest, hne, hrr, hmin, hpos]
set_option maxRecDepth 4000 in
/-- A run of consecutive round-robin selections that stays within the online count
returns the slice of the online list starting at the cursor and moves the cursor
forward by the number of calls. -/
theorem getRestRun_rr (n : Nat) (s : NM) (hrr : s.round_robin = true)
    (h : s.rr_pos + n ≤ s.nodes.length) :
    getRestRun n s = ((s.nodes.drop s.rr_pos).take n, { s with rr_pos := s.rr_pos + n }) := by
  induction n generalizing s with
  | zero => simp [getRestRun]
  | succ n ih =>
    have hlt : s.rr_pos < s.nodes.length := by omega
    have ih2 := ih { s with rr_pos := s.rr_pos + 1 } hrr (by simp; omega)
    simp only [getRestRun, get_rest_rr_step s hrr hlt, ih2]
    have hgetD : s.nodes.getD s.rr_pos 0 = s.nodes[s.rr_pos] := by
      rw [List.getD_eq_getElem?_getD, List.getElem?_eq_getElem hlt, Option.getD_some]
    have harith : s.rr_pos + 1 + n = s.rr_pos + (n + 1) := by omega
    rw [List.drop_eq_getElem_cons hlt, List.take_succ_cons, hgetD, harith]
/-- C1: with round robin enabled, the cursor at 0 and a non-empty duplicate-free
online list of length N, N consecutive get_rest calls return each online node
exactly once, in collection order, and leave the cursor at N; having reached N, the
cursor wraps to 0 on the next call (which returns the last node again while the
clamped cursor is reset). -/
theorem round_robin_cycle (s : NM) (hrr : s.round_robin = true) (hpos : s.rr_pos = 0)
    (hne : s.nodes ≠ []) (hnd : s.nodes.Nodup) :
    (getRestRun s.nodes.length s).1 = s.nodes ∧
    (∀ n ∈ s.nodes, (getRestRun s.nodes.length s).1.count n = 1) ∧
    (getRestRun s.nodes.length s).2.rr_pos = s.nodes.length ∧
    get_rest (getRestRun s.nodes.length s).2 =
      Except.ok (s.nodes.getD (s.nodes.length - 1) 0, { s with rr_pos := 0 }) := by
  have hrun := getRestRun_rr s.nodes.length s hrr (by omega)
  rw [hpos] at hrun
  simp only [List.drop_zero, List.take_length, Nat.zero_add] at hrun
  rw [hrun]
  refine ⟨rfl, fun n hn => List.count_eq_one_of_mem hnd hn, rfl, ?_⟩
  exact get_rest_rr_wrap { s with rr_pos := s.nodes.length } hrr hne (by simp)
theorem round_robin_cycle_witness :
    (getRestRun rrState.nodes.length rrState).1 = rrState.nodes ∧
    (∀ n ∈ rrState.nodes, (getRestRun rrState.nodes.length rrState).1.count n = 1) ∧
    (getRestRun rrState.nodes.length rrState).2.rr_pos = rrState.nodes.length ∧
    get_rest (getRestRun rrState.nodes.length rrState).2 =
      Except.ok (rrState.nodes.getD (rrState.nodes.length - 1) 0, { rrState with rr_pos := 0 }) :=
  round_robin_cycle rrState rfl rfl (by decide) (by decide)
/-- C6 amended: get_rest preserves the cursor bound 0 ≤ cursor ≤ len(online) — in
round-robin mode it resets the cursor to 0 exactly when the advanced cursor would
exceed len(online) — and promote preserves the bound as well; demote, however, never
adjusts the cursor, so it can leave the cursor above len(online) (see the
counterexample) until the next get_rest clamps it. -/
theorem cursor_bound_get_rest_promote (s : NM) (nd : NodeId) (s' : NM) (n : NodeId) :
    (get_rest s = Except.ok (nd, s') → s.rr_pos ≤ s.nodes.length →
      s'.rr_pos ≤ s'.nodes.length) ∧
    (get_rest s = Except.ok (nd, s') → s.round_robin = true →
      s.rr_pos + 1 > s.nodes.length → s'.rr_pos = 0) ∧
    (s.rr_pos ≤ s.nodes.length →
      (on_node_ready s n).rr_pos ≤ (on_node_ready s n).nodes.length) := by
  refine ⟨?_, ?_, ?_⟩
  · intro h hb
    unfold get_rest at h
    by_cases hni : s.nodes = []
    · simp [hni] at h
    · by_cases hrr : s.round_robin = true
      · simp only [hni, hrr, if_neg, if_pos, if_true, if_false, ite_true, ite_false,
          Except.ok.injEq, Prod.mk.injEq] at h
        obtain ⟨-, h2⟩ := h
        subst h2
        by_cases hw : s.rr_pos + 1 > s.nodes.length <;> (simp [hw]; try omega)
      · simp only [hni, hrr, ite_false, ite_true, if_neg, if_pos,
          Except.ok.injEq, Prod.mk.injEq] at h
        by_cases hd : s.default_node_index < s.nodes.length <;> simp [hd] at h <;>
          obtain ⟨-, h2⟩ := h <;> subst h2 <;> exact hb
  · intro h hrr hw
    unfold get_rest at h
    by_cases hni : s.nodes = []
    · simp [hni] at h
    · simp only [hni, hrr, if_neg, if_pos, ite_true, ite_false,
        Except.ok.injEq, Prod.mk.injEq] at h
      obtain ⟨-, h2⟩ := h
      subst h2
      simp [hw]
  · intro hb
    by_cases h : n ∈ s.offline_nodes
    · rw [on_node_ready_mem s n h]
      simp only [List.length_append, List.length_cons, List.length_nil]
      omega
    · rw [(promote_demote_noop s n).1 h]
      exact hb
theorem cursor_bound_witness :
    ({ rrState with rr_pos := 1 } : NM).rr_pos ≤ ({ rrState with rr_pos := 1 } : NM).nodes.length ∧
    ({ rrState with rr_pos := 0 } : NM).rr_pos = 0 ∧
    (on_node_ready rrState 9).rr_pos ≤ (on_node_ready rrState 9).nodes.length :=
  ⟨(cursor_bound_get_rest_promote rrState 5 { rrState with rr_pos := 1 } 9).1
      (by rfl) (by decide),
   (cursor_bound_get_rest_promote { rrState with rr_pos := 2 } 7 { rrState with rr_pos := 0 } 9).2.1
      (by rfl) (by rfl) (by decide),
   (cursor_bound_get_rest_promote rrState 5 { rrState with rr_pos := 1 } 9).2.2 (by decide)⟩
/-- C6 counterexample: in the reachable state above the cursor is 1 while the online
count is 0, so demote violates the claimed bound and performs no reset to 0. -/
theorem cursor_exceeds_after_demote :
    cursorOverrunState.rr_pos = 1 ∧ cursorOverrunState.nodes.length = 0 := by
  exact ⟨by decide, by decide⟩
/-- C2 counterexample: demoting the last online node leaves its routing entries
pointing at it, so the routing invariant fails in a reachable state (and stays
broken across later operations until the entries are overwritten). -/
theorem routingOnline_violated : ¬ routingOnline lastNodeDemoted := by
  intro hinv
  have h0 : dictGet lastNodeDemoted.nodes_by_region "london" = some 0 := by decide
  have hmem := hinv "london" 0 h0
  have h1 : lastNodeDemoted.nodes = [] := by decide
  rw [h1] at hmem
  exact absurd hmem (List.not_mem_nil 0)
/-- C2 amended: the routing invariant (every routing entry points to an online node)
is preserved by add and by promote; demote does not preserve it — when the demoted
node is the last online node its entries are left pointing at it, and an entry that
routes to the demoted node under a region outside the node's assigned set is not
repointed even when other nodes remain. -/
theorem routingOnline_preserved_add_promote (s : NM) (id : NodeId) (regions : List Region)
    (n : NodeId) (hinv : routingOnline s) :
    routingOnline (s.add id regions) ∧ routingOnline (on_node_ready s n) := by
  constructor
  · intro r m hm
    exact hinv r m hm
  · intro r m hm
    by_cases h : n ∈ s.offline_nodes
    · rw [on_node_ready_mem s n h] at hm ⊢
      simp only [dictGet_foldl_set] at hm
      by_cases hr : r ∈ (s.info n).regions
      · rw [if_pos hr] at hm
        obtain rfl : n = m := Option.some.injEq _ _ ▸ hm
        simp
      · rw [if_neg hr] at hm
        have := hinv r m hm
        simp [this]
    · rw [(promote_demote_noop s n).1 h] at hm ⊢
      exact hinv r m hm
theorem routingOnline_preserved_witness :
    routingOnline ((NM.init 0 false).add 0 ["london"]) ∧
      routingOnline (on_node_ready (NM.init 0 false) 0) :=
  routingOnline_preserved_add_promote (NM.init 0 false) 0 ["london"] 0
    (fun r n h => by simp [NM.init, dictGet] at h)
/-- C4 amended: demoting an online node with at least one online node remaining
repoints exactly the regions in the demoted node's assigned region set to the first
remaining online node; every other routing entry is unchanged — including an entry
that routed to the demoted node under a region outside its assigned set, which keeps
pointing at the now-offline node, and an entry for an assigned region is repointed
even if it currently routes to a different node. -/
theorem demote_repoints_assigned_regions (s : NM) (node : NodeId) (h : node ∈ s.nodes)
    (d : NodeId) (t : List NodeId) (hrem : s.nodes.erase node = d :: t) (r : Region) :
    dictGet (on_node_disabled s node).nodes_by_region r =
      if r ∈ (s.info node).regions then some d else dictGet s.nodes_by_region r := by
  rw [on_node_disabled_mem_rem s node h d t hrem]
  simp [dictGet_foldl_set]
theorem demote_repoints_witness :
    dictGet (on_node_disabled twoNodeState 0).nodes_by_region "london" =
      if "london" ∈ (twoNodeState.info 0).regions then some 1
      else dictGet twoNodeState.nodes_by_region "london" :=
  demote_repoints_assigned_regions twoNodeState 0 (by decide) 1 [] (by decide) "london"
/-- C4 counterexample: immediately before node 1 is demoted, region london is routed
to node 1; node 2 remains online, yet after the demotion london still points at the
now-offline node 1 instead of being repointed to node 2 — the code repoints the
node's assigned regions, not the regions currently routed to it. -/
theorem demote_misses_routed_region :
    dictGet staleRoutingState.nodes_by_region "london" = some 1 ∧
    (on_node_disabled staleRoutingState 1).nodes = [2] ∧
    dictGet (on_node_disabled staleRoutingState 1).nodes_by_region "london" = some 1 := by
  exact ⟨by decide, by decide, by decide⟩
/-- Failover of a node owning exactly two sessions: both are removed from the
failing node's player map and stored, migrated, in the player map of the first
online node. -/
theorem manage_failover_two (s : NM) (A target : NodeId) (t : List NodeId)
    (g1 g2 : GuildId) (p1 p2 : Player)
    (hAB : A ≠ target) (hg : g1 ≠ g2)
    (hnodes : s.nodes = target :: t)
    (hA : (s.info A).players = [(g1, p1), (g2, p2)]) :
    ((manage_failover s A).info A).players = [] ∧
    dictGet ((manage_failover s A).info target).players g1 = some (migratePlayer target p1) ∧
    dictGet ((manage_failover s A).info target).players g2 = some (migratePlayer target p2) := by
  have hTA : ¬ (target = A) := fun hx => hAB hx.symm
  simp only [manage_failover, hnodes, hA, List.foldl_cons, List.foldl_nil]
  refine ⟨?_, ?_, ?_⟩
  · simp [NM.setPlayers, NM.info, dictGet_dictSet, hAB, hTA]
  · simp [NM.setPlayers, NM.info, dictGet_dictSet, hAB, hTA, hg]
  · simp [NM.setPlayers, NM.info, dictGet_dictSet, hAB, hTA, hg]
/-- C3: node A owns a playing session g1 (track `p1.current` at position
`p1.position`) and an idle session g2, node B is online; demoting A (with the
spec-modelled transport trigger) migrates both sessions: afterwards g1 and g2 are in
B's ownership map and no longer in A's; g1's session is owned by B, reconnected, has
its track queued at the front of its queue, is playing, and is seeked to its
captured position; g2 is reassigned to B with no playback side effects (only its
voice connection is torn down). -/
theorem failover_migrates_sessions (A B : NodeId) (g1 g2 : GuildId) (p1 p2 : Player)
    (s : NM)
    (hAB : A ≠ B) (hg : g1 ≠ g2)
    (hnodes : s.nodes = [A, B])
    (hA : (s.info A).players = [(g1, p1), (g2, p2)])
    (hp1 : p1.is_playing = true) (hp2 : p2.is_playing = false) :
    ((demote_with_failover s A).info A).players = [] ∧
    dictGet ((demote_with_failover s A).info B).players g1 =
      some { node := B, channel_id := p1.channel_id, is_playing := true,
             current := p1.current, position := p1.position,
             queue := p1.current :: p1.queue, connected := true } ∧
    dictGet ((demote_with_failover s A).info B).players g2 =
      some { node := B, channel_id := p2.channel_id, is_playing := false,
             current := p2.current, position := p2.position,
             queue := p2.queue, connected := false } := by
  have hmem : A ∈ s.nodes := by
    rw [hnodes]
    exact List.mem_cons_self A [B]
  have hrem : s.nodes.erase A = [B] := by
    rw [hnodes]
    exact List.erase_cons_head A [B]
  have hdis := on_node_disabled_mem_rem s A hmem B [] hrem
  have h3nodes : (on_node_disabled s A).nodes = [B] := by rw [hdis]
  have h3A : ((on_node_disabled s A).info A).players = [(g1, p1), (g2, p2)] := by
    rw [hdis]
    simp [NM.info, dictGet_dictSet]
    exact hA
  have hm := manage_failover_two (on_node_disabled s A) A B [] g1 g2 p1 p2 hAB hg h3nodes h3A
  have hm1 : migratePlayer B p1 =
      { node := B, channel_id := p1.channel_id, is_playing := true,
        current := p1.current, position := p1.position,
        queue := p1.current :: p1.queue, connected := true } := by
    simp [migratePlayer, hp1]
  have hm2 : migratePlayer B p2 =
      { node := B, channel_id := p2.channel_id, is_playing := false,
        current := p2.current, position := p2.position,
        queue := p2.queue, connected := false } := by
    simp [migratePlayer, hp2]
  rw [hm1, hm2] at hm
  exact hm
theorem failover_migrates_witness :
    ((demote_with_failover failoverState 0).info 0).players = [] ∧
    dictGet ((demote_with_failover failoverState 0).info 1).players 10 =
      some { node := 1, channel_id := 5, is_playing := true, current := 42, position := 777,
             queue := [42, 9], connected := true } ∧
    dictGet ((demote_with_failover failoverState 0).info 1).players 20 =
      some { node := 1, channel_id := 6, is_playing := false, current := 3, position := 4,
             queue := [], connected := false } :=
  failover_migrates_sessions 0 1 10 20
    { node := 0, channel_id := 5, is_playing := true, current := 42, position := 777,
      queue := [9], connected := true }
    { node := 0, channel_id := 6, is_playing := false, current := 3, position := 4,
      queue := [], connected := false }
    failoverState
    (by decide) (by decide) (by decide) (by decide) rfl rfl
end Lavalink
